import Mathlib

/-!
Verification of the soundvis audio-visualization pipeline.

The development shallowly embeds the two components of the repository:

* `AudioProcessor` (frequency-band extraction `getFrequencyBands`, RMS
  volume `getRawVolume`, and the Web-Audio graph lifecycle
  `requestMicrophoneAccess` / `createTestTone` / `connectAudioElement` /
  `cleanup`), with byte buffers as `List ℕ` and JavaScript numbers as `ℝ`;
* the reactive visualization's per-tick update mathematics
  (`CloudParticles` and the `SoundVisualizer` state machine).

The Web-Audio graph is modelled as an explicit edge list together with the
set of running oscillators and live microphone tracks, so that connection
and teardown behaviour can be evaluated on concrete call sequences.
-/

namespace Soundvis

/-- JavaScript `Array.prototype.slice(a, b)` for non-negative indices:
the elements at positions `[a, b)`, clamped to the array. -/
def jsSlice {α : Type} (l : List α) (a b : ℕ) : List α :=
  (l.drop a).take (b - a)

/-- The code's `Math.max(...bandData)` with the code's empty-band guard folded in:
the maximum of a list of bytes, `0` for the empty list. -/
def listMax (l : List ℕ) : ℕ := l.foldr max 0

/-!
Logarithmically spaced band boundaries

`AudioProcessor.getFrequencyBands` builds its sub-band boundaries with the
inner helper `logSpace(start, end, n)`, which pushes
`Math.round(Math.exp(logStart + delta * i))` for `i = 0 .. n-1` where
`delta = (logEnd - logStart) / (n - 1)`.
-/
/-- The `logSpace` helper of `getFrequencyBands`: `n` rounded samples of
`exp` between `log start` and `log stop` (inclusive). -/
noncomputable def logSpace (start stop : ℝ) (n : ℕ) : List ℤ :=
  (List.range n).map fun (i : ℕ) =>
    round (Real.exp (Real.log start + (Real.log stop - Real.log start) / ((n : ℝ) - 1) * i))

/-!
`AudioProcessor.getFrequencyBands`

The frequency byte buffer filled by `getByteFrequencyData` is a `List ℕ`
of values in `[0, 255]`.  The method checks the total energy of the whole
buffer, restricts to the bin range `[startBin, endBin) = [1, min 800 len)`,
computes the nine `logSpace` boundaries, and takes the peak byte of each
of the eight sub-bands.
-/
/-- The band loop of `getFrequencyBands`: for each of the 8 bands,
slice `usefulRange` between two consecutive boundaries (shifted by
`startBin = 1`) and take the peak value, `0` for an empty slice. -/
def bandsFromBoundaries (data : List ℕ) (bs : List ℤ) : List ℕ :=
  (List.range 8).map fun i =>
    listMax (jsSlice (jsSlice data 1 (min 800 data.length))
      ((bs.getD i 0).toNat - 1) ((bs.getD (i + 1) 0).toNat - 1))

/-- Model of `AudioProcessor.getFrequencyBands` on the analyser snapshot `data`:
all zeros when the whole buffer sums to zero (`hasSignal === false`),
otherwise the eight log-spaced peak values. -/
noncomputable def getFrequencyBands (data : List ℕ) : List ℕ :=
  if data.sum = 0 then List.replicate 8 0
  else bandsFromBoundaries data (logSpace 1 ((min 800 data.length : ℕ) : ℝ) 9)

/-!
`AudioProcessor.getRawVolume`

RMS of the time-domain byte buffer, each byte normalized to `[-1, 1]`
as `byte / 128 - 1`.
-/
/-- Model of `AudioProcessor.getRawVolume` on the time-domain snapshot. -/
noncomputable def getRawVolume (timeDomainData : List ℕ) : ℝ :=
  Real.sqrt
    (((timeDomainData.map fun (b : ℕ) => ((b : ℝ) / 128 - 1) * ((b : ℝ) / 128 - 1)).sum) /
      timeDomainData.length)

/-!
The Web-Audio graph and the `AudioProcessor` lifecycle

Nodes are numbered; the graph records directed connections, the set of
started-and-not-stopped oscillators, and the live microphone tracks.
`disconnect()` with no argument removes every outgoing connection of a
node.  Node `0` is reserved for `audioContext.destination`.
-/
structure AudioGraph where
  conns : List (ℕ × ℕ) := []
  runningOsc : List ℕ := []
  liveTracks : List ℕ := []
  nextId : ℕ := 1
  deriving DecidableEq

/-- Node id of `audioContext.destination`. -/
def destNode : ℕ := 0

def emptyGraph : AudioGraph := {}

def connect (g : AudioGraph) (a b : ℕ) : AudioGraph :=
  { g with conns := g.conns ++ [(a, b)] }

/-- Effect of `node.disconnect()`: drop every outgoing connection of `a`. -/
def disconnectAll (g : AudioGraph) (a : ℕ) : AudioGraph :=
  { g with conns := g.conns.filter fun e => e.1 ≠ a }

def startOsc (g : AudioGraph) (o : ℕ) : AudioGraph :=
  { g with runningOsc := g.runningOsc ++ [o] }

def stopOsc (g : AudioGraph) (o : ℕ) : AudioGraph :=
  { g with runningOsc := g.runningOsc.filter fun x => x ≠ o }

def addTrack (g : AudioGraph) (s : ℕ) : AudioGraph :=
  { g with liveTracks := g.liveTracks ++ [s] }

def stopTracks (g : AudioGraph) (s : ℕ) : AudioGraph :=
  { g with liveTracks := g.liveTracks.filter fun x => x ≠ s }

/-- The mutable fields of `AudioProcessor`.  `hasDataArray` models whether
`this.dataArray` is non-null. -/
structure Processor where
  audioContext : Bool := false
  analyser : Option ℕ := none
  hasDataArray : Bool := false
  microphoneStream : Option ℕ := none
  oscillator : Option ℕ := none
  sourceNode : Option ℕ := none
  mediaElementSource : Option ℕ := none
  connectedAudioElement : Option ℕ := none
  deriving DecidableEq

/-- The state after `new AudioProcessor()`. -/
def initialProcessor : Processor := {}

/-- Model of `initAudioContext`: (re)creates the context if needed and always
creates a fresh `AnalyserNode` and a fresh `dataArray`.  The previous
analyser node, if any, is simply abandoned in the graph. -/
def initAudioContext (p : Processor) (g : AudioGraph) : Processor × AudioGraph :=
  ({ p with audioContext := true, analyser := some g.nextId, hasDataArray := true },
   { g with nextId := g.nextId + 1 })

/-- Model of `requestMicrophoneAccess` (success path): init the context, acquire a
fresh stream whose track goes live, disconnect a previous microphone
source node if present, then connect a fresh source node to the
analyser. -/
def requestMicrophoneAccess (p : Processor) (g : AudioGraph) : Processor × AudioGraph :=
  let pg := initAudioContext p g
  let p1 := pg.1
  let s := pg.2.nextId
  let g2 := addTrack { pg.2 with nextId := pg.2.nextId + 1 } s
  let p2 := { p1 with microphoneStream := some s }
  let g3 := match p2.sourceNode with
    | some n => disconnectAll g2 n
    | none => g2
  let n := g3.nextId
  let g4 := connect { g3 with nextId := g3.nextId + 1 } n (p2.analyser.getD 0)
  ({ p2 with sourceNode := some n }, g4)

/-- Model of `createTestTone` (success path): init the context, stop and disconnect
the previously *stored* oscillator only, then build the bank: a master
gain into the analyser, an LFO with its gain into the master gain, and
four oscillators each through an own gain into the master gain; only the
fundamental (`oscillators[0]`) is stored for cleanup. -/
def createTestTone (p : Processor) (g : AudioGraph) : Processor × AudioGraph :=
  let pg := initAudioContext p g
  let p1 := pg.1
  let g1 := pg.2
  let g2 := match p1.oscillator with
    | some o => disconnectAll (stopOsc g1 o) o
    | none => g1
  let an := p1.analyser.getD 0
  let m := g2.nextId
  let g3 := connect { g2 with nextId := g2.nextId + 1 } m an
  let l := g3.nextId
  let g4 := { g3 with nextId := g3.nextId + 1 }
  let lg := g4.nextId
  let g5 := { g4 with nextId := g4.nextId + 1 }
  let g6 := startOsc (connect (connect g5 l lg) lg m) l
  let step : AudioGraph × List ℕ → ℕ → AudioGraph × List ℕ := fun acc _ =>
    let o := acc.1.nextId
    let ga := { acc.1 with nextId := acc.1.nextId + 1 }
    let gn := ga.nextId
    let gb := { ga with nextId := ga.nextId + 1 }
    (startOsc (connect (connect gb o gn) gn m) o, acc.2 ++ [o])
  let fin := (List.range 4).foldl step (g6, [])
  ({ p1 with oscillator := some (fin.2.getD 0 0) }, fin.1)

/-- Model of `connectAudioElement` (success path): init the context; if the same
element is already connected, reuse its source node, else create a fresh
media element source; in both cases connect source → analyser and
analyser → destination. -/
def connectAudioElement (p : Processor) (g : AudioGraph) (el : ℕ) : Processor × AudioGraph :=
  let pg := initAudioContext p g
  let p1 := pg.1
  let an := p1.analyser.getD 0
  if p1.connectedAudioElement = some el ∧ p1.mediaElementSource.isSome then
    (p1, connect (connect pg.2 (p1.mediaElementSource.getD 0) an) an destNode)
  else
    let mes := pg.2.nextId
    let g2 := connect { pg.2 with nextId := pg.2.nextId + 1 } mes an
    let g3 := connect g2 an destNode
    ({ p1 with mediaElementSource := some mes, connectedAudioElement := some el }, g3)

/-- Model of `cleanup`: stop the current stream's tracks, stop and disconnect the
stored oscillator, disconnect the source node and the media element
source, disconnect the analyser, and null the data array.  The analyser,
media element source and connected-element references are kept, as in the
code. -/
def cleanup (p : Processor) (g : AudioGraph) : Processor × AudioGraph :=
  let g1 := match p.microphoneStream with
    | some s => stopTracks g s
    | none => g
  let g2 := match p.oscillator with
    | some o => disconnectAll (stopOsc g1 o) o
    | none => g1
  let g3 := match p.sourceNode with
    | some n => disconnectAll g2 n
    | none => g2
  let g4 := match p.mediaElementSource with
    | some mes => disconnectAll g3 mes
    | none => g3
  let g5 := match p.analyser with
    | some a => disconnectAll g4 a
    | none => g4
  ({ p with
      microphoneStream := none
      oscillator := none
      sourceNode := none
      hasDataArray := false }, g5)

/-- Model of `getFrequencyData`: `null` unless both the analyser and the data array
exist; otherwise the current analyser snapshot `freq`. -/
def getFrequencyDataS (p : Processor) (freq : List ℕ) : Option (List ℕ) :=
  if p.analyser.isSome ∧ p.hasDataArray then some freq else none

/-- Model of `getRawVolume` including its guard clause. -/
noncomputable def getRawVolumeS (p : Processor) (time : List ℕ) : ℝ :=
  if p.analyser.isSome ∧ p.hasDataArray then getRawVolume time else 0

/-- Model of `getFrequencyBands` including its guard clause. -/
noncomputable def getFrequencyBandsS (p : Processor) (freq : List ℕ) : List ℕ :=
  if p.hasDataArray ∧ p.analyser.isSome then getFrequencyBands freq else List.replicate 8 0

/-!
`SoundVisualizer` component state and `stopListening`
-/
inductive MicStatus where
  | initial
  | requesting
  | active
  | test
  | sample
  | fault
  deriving DecidableEq

/-- The React state of `SoundVisualizer` that `stopListening` touches. -/
structure VisualizerState where
  isListening : Bool
  audioData : List ℕ
  microphoneStatus : MicStatus
  audioLevel : ℝ
  rawVolume : ℝ
  processor : Processor
  animationFrame : Bool

/-- Model of `stopListening`: clear the animation-frame ref, run the processor
cleanup, then reset listening flag, status, band array and audio level.
`rawVolume` is not touched. -/
noncomputable def stopListening (s : VisualizerState) (g : AudioGraph) :
    VisualizerState × AudioGraph :=
  let s1 := { s with animationFrame := false }
  let pg := cleanup s1.processor g
  ({ s1 with
      processor := pg.1
      isListening := false
      microphoneStatus := MicStatus.initial
      audioData := List.replicate 8 0
      audioLevel := 0 }, pg.2)

/-!
`CloudParticles` per-tick update

Positions and colors live in `Float32Array`s; a point is a `Vec3`.
The per-point update of the `useFrame` callback is the function
`cloudParticleTick` of (previous position, band array, sensitivity,
elapsed time, point index, and the `Math.random()` sample drawn by the
size update).
-/
structure Vec3 where
  x : ℝ
  y : ℝ
  z : ℝ

/-- Length of a vector, `THREE.Vector3.length` alias the code's explicit `Math.sqrt(x*x+y*y+z*z)`. -/
noncomputable def vecLength (v : Vec3) : ℝ :=
  Real.sqrt (v.x * v.x + v.y * v.y + v.z * v.z)

/-- Lines 144-162: a point whose post-movement distance exceeds 20 is
moved to its normalized direction scaled by 10. -/
noncomputable def boundsReset (v : Vec3) : Vec3 :=
  if 20 < vecLength v then
    ⟨v.x / vecLength v * 10, v.y / vecLength v * 10, v.z / vecLength v * 10⟩
  else v

/-- Lines 64-68: the three frequency-group intensities. -/
noncomputable def lowFreqIntensity (sensitivity : ℝ) (audioData : List ℝ) : ℝ :=
  sensitivity * (jsSlice audioData 0 2).sum / (2 * 255)

noncomputable def midFreqIntensity (sensitivity : ℝ) (audioData : List ℝ) : ℝ :=
  sensitivity * (jsSlice audioData 2 5).sum / (3 * 255)

noncomputable def highFreqIntensity (sensitivity : ℝ) (audioData : List ℝ) : ℝ :=
  sensitivity * (audioData.drop 5).sum / (3 * 255)

/-- Line 72: upward bias when bass dominates treble. -/
noncomputable def verticalBias (sensitivity : ℝ) (audioData : List ℝ) : ℝ :=
  (lowFreqIntensity sensitivity audioData - highFreqIntensity sensitivity audioData) * 0.3

/-- Line 73: outward bias when treble dominates bass. -/
noncomputable def radialBias (sensitivity : ℝ) (audioData : List ℝ) : ℝ :=
  (highFreqIntensity sensitivity audioData - lowFreqIntensity sensitivity audioData) * 0.3

/-- Lines 86-90: the band selected by the point's radial distance, and the
local audio intensity. -/
noncomputable def audioIntensityAt (pos : Vec3) (audioData : List ℝ) (sensitivity : ℝ) : ℝ :=
  let distance := Real.sqrt (pos.x * pos.x + pos.y * pos.y + pos.z * pos.z)
  let bandIndex := min (⌊distance / 20 * audioData.length⌋.toNat) (audioData.length - 1)
  sensitivity * audioData.getD bandIndex 0 / 255

/-- Lines 93-162: the position update of one point in one tick — breathing
plus audio-reactive movement along the biased direction, the mid-band
swirl in the XZ plane, the slow self-rotation, and the bounds reset. -/
noncomputable def particleMove (pos : Vec3) (audioData : List ℝ)
    (sensitivity t : ℝ) (i : ℕ) : Vec3 :=
  let breathingEffect := Real.sin (t * 0.15) * 0.05
  let baseMovementFactor := 0.1 + breathingEffect
  let verticalB := verticalBias sensitivity audioData
  let radialB := radialBias sensitivity audioData
  let midF := midFreqIntensity sensitivity audioData
  let circularMotionSpeed := 0.05 + midF * 0.2
  let circularMotionDirection : ℝ := if 0.5 < midF then 1 else -1
  let x := pos.x
  let y := pos.y
  let z := pos.z
  let distance := Real.sqrt (x * x + y * y + z * z)
  let audioIntensity := audioIntensityAt pos audioData sensitivity
  let noise := Real.sin (t * 0.2 + i * 0.005 + x * 0.05 + y * 0.05) * 0.02
  let audioFactor := audioIntensity ^ (3 : ℕ) * 0.8
  let movement := baseMovementFactor + audioFactor + noise
  let dir1 : Vec3 := ⟨x / distance, y / distance + verticalB, z / distance⟩
  let dir2 : Vec3 :=
    if 0 < radialB then
      ⟨dir1.x * (1 + radialB * 0.2), dir1.y * (1 + radialB * 0.2), dir1.z * (1 + radialB * 0.2)⟩
    else
      ⟨dir1.x * (1 / (1 - radialB * 0.2)), dir1.y * (1 / (1 - radialB * 0.2)),
        dir1.z * (1 / (1 - radialB * 0.2))⟩
  let p1 : Vec3 := ⟨x + dir2.x * movement * 0.05, y + dir2.y * movement * 0.05,
    z + dir2.z * movement * 0.05⟩
  let p2 : Vec3 :=
    if 0.1 < audioIntensity then
      if 0.1 < Real.sqrt (x * x + z * z) then
        let xzDistance := Real.sqrt (x * x + z * z)
        let circularForce := circularMotionSpeed * circularMotionDirection
        ⟨p1.x + -(z / xzDistance) * circularForce * movement, p1.y,
          p1.z + x / xzDistance * circularForce * movement⟩
      else p1
    else p1
  let rotationSpeed := 0.0005 + audioIntensity * audioIntensity * 0.01
  let p3 : Vec3 := ⟨p2.x * Real.cos rotationSpeed - p2.z * Real.sin rotationSpeed, p2.y,
    p2.x * Real.sin rotationSpeed + p2.z * Real.cos rotationSpeed⟩
  boundsReset p3

/-- Lines 164-167: the per-tick color write. -/
noncomputable def particleColor (pos : Vec3) (audioData : List ℝ) (sensitivity : ℝ) : Vec3 :=
  ⟨0.2 + audioIntensityAt pos audioData sensitivity * 0.7,
   0.1 + audioIntensityAt pos audioData sensitivity * 0.2,
   0.5 + audioIntensityAt pos audioData sensitivity * 0.3⟩

/-- Line 170: the per-tick size write; `r` is the fresh `Math.random()`
sample drawn on this tick. -/
noncomputable def particleSize (pos : Vec3) (audioData : List ℝ) (sensitivity r : ℝ) : ℝ :=
  (0.05 + r * 0.05) * (1 + audioIntensityAt pos audioData sensitivity * 1.5)

/-- One whole per-point tick: new position, new color, new size. -/
noncomputable def cloudParticleTick (pos : Vec3) (audioData : List ℝ)
    (sensitivity t : ℝ) (i : ℕ) (r : ℝ) : Vec3 × Vec3 × ℝ :=
  (particleMove pos audioData sensitivity t i,
   particleColor pos audioData sensitivity,
   particleSize pos audioData sensitivity r)

/-!
`EnergyDisturbance` per-tick update
-/
/-- The mesh/material state the `EnergyDisturbance` `useFrame` callback
reads and writes. -/
structure MeshState where
  scale : ℝ
  rotX : ℝ
  rotY : ℝ
  rotZ : ℝ
  lastRotX : ℝ
  lastRotY : ℝ
  lastRotZ : ℝ
  emissiveIntensity : ℝ
  colorR : ℝ
  colorG : ℝ
  colorB : ℝ
  geomTube : ℝ
  geomP : ℤ
  geomQ : ℤ

/-- The JavaScript `%` operator for the non-negative operands used here. -/
noncomputable def jsMod (a b : ℝ) : ℝ := a - b * ⌊a / b⌋

/-- Lines 199-284: one `EnergyDisturbance` tick — scale pulse, smoothed
rotation whose sign tracks the dominant group, material color/emissive,
and the time-gated geometry regeneration. -/
noncomputable def energyDisturbanceTick (st : MeshState) (audioData : List ℝ)
    (sensitivity t : ℝ) : MeshState :=
  let avgIntensity := sensitivity * audioData.sum / audioData.length / 255
  let lowF := lowFreqIntensity sensitivity audioData
  let highF := highFreqIntensity sensitivity audioData
  let midF := midFreqIntensity sensitivity audioData
  let breathingEffect := (Real.sin (t * 0.1) + 1) * 0.04
  let pulseScale := 1 + breathingEffect + avgIntensity * avgIntensity * 0.8
  let xRotationDir : ℝ := if highF < lowF then 1 else -1
  let yRotationDir : ℝ := if 0.3 < midF then 1 else -1
  let zRotationDir : ℝ := if lowF < highF then 1 else -1
  let rotationBase := 0.001
  let rotationAudioFactor := avgIntensity ^ (2 : ℕ) * 0.05
  let lastX := st.lastRotX * 0.95 + (rotationBase + rotationAudioFactor) * 0.05 * xRotationDir
  let lastY := st.lastRotY * 0.95 + (rotationBase + rotationAudioFactor * 1.1) * 0.05 * yRotationDir
  let lastZ := st.lastRotZ * 0.95 + (rotationBase + highF * 0.02) * zRotationDir
  let baseEmissive := 0.2 + breathingEffect
  let cr := 0.3 + 0.1 * Real.sin (t * 0.3) + avgIntensity * 0.5
  let cg := 0.1 + avgIntensity * 0.3
  let cb := 0.6 + 0.1 * Real.cos (t * 0.3) + avgIntensity * 0.4
  let regen : Prop := jsMod t 2 < 0.1 ∧ 0.2 < avgIntensity
  { scale := pulseScale
    rotX := st.rotX + lastX
    rotY := st.rotY + lastY
    rotZ := st.rotZ + lastZ
    lastRotX := lastX
    lastRotY := lastY
    lastRotZ := lastZ
    emissiveIntensity := baseEmissive + avgIntensity * 2.5
    colorR := cr
    colorG := cg
    colorB := cb
    geomTube := if regen then 0.3 + avgIntensity * 0.15 else st.geomTube
    geomP := if regen then round (2 + lowF * 4) else st.geomP
    geomQ := if regen then round (3 + highF * 4) else st.geomQ }

theorem listMax_le {l : List ℕ} {c : ℕ} (h : ∀ x ∈ l, x ≤ c) : listMax l ≤ c := by
  induction l with
  | nil => simp [listMax]
  | cons y ys ih =>
      simp only [listMax, List.foldr_cons] at *
      exact max_le (h y (by simp)) (ih fun x hx => h x (by simp [hx]))

theorem le_listMax {l : List ℕ} {x : ℕ} (h : x ∈ l) : x ≤ listMax l := by
  induction l with
  | nil => cases h
  | cons y ys ih =>
      rcases List.mem_cons.1 h with rfl | hx
      · exact le_max_left _ _
      · exact le_trans (ih hx) (le_max_right _ _)

theorem listMax_eq_zero {l : List ℕ} : listMax l = 0 ↔ ∀ x ∈ l, x = 0 := by
  constructor
  · intro h x hx
    exact Nat.le_zero.1 (h ▸ le_listMax hx)
  · intro h
    exact Nat.le_zero.1 (listMax_le fun x hx => (h x hx).le)

theorem length_jsSlice {α : Type} (l : List α) (a b : ℕ) :
    (jsSlice l a b).length = min (b - a) (l.length - a) := by
  simp [jsSlice]

theorem getD_jsSlice (l : List ℕ) (a b k : ℕ) (hk : k < (jsSlice l a b).length) :
    (jsSlice l a b).getD k 0 = l.getD (a + k) 0 := by
  have hk' : k < min (b - a) (l.length - a) := by
    simpa [length_jsSlice] using hk
  have hlen : a + k < l.length := by omega
  rw [List.getD_eq_getElem _ _ hk, List.getD_eq_getElem _ _ hlen]
  simp [jsSlice]

theorem mem_jsSlice_imp {l : List ℕ} {a b x : ℕ} (h : x ∈ jsSlice l a b) :
    ∃ j, a ≤ j ∧ j < b ∧ j < l.length ∧ l.getD j 0 = x := by
  rcases List.mem_iff_getElem.1 h with ⟨k, hk, hx⟩
  have hk' : k < min (b - a) (l.length - a) := by
    simpa [length_jsSlice] using hk
  refine ⟨a + k, by omega, by omega, by omega, ?_⟩
  rw [← getD_jsSlice l a b k hk, List.getD_eq_getElem _ _ hk]
  exact hx

theorem getD_mem_jsSlice {l : List ℕ} {a b j : ℕ}
    (h1 : a ≤ j) (h2 : j < b) (h3 : j < l.length) :
    l.getD j 0 ∈ jsSlice l a b := by
  have hk : j - a < (jsSlice l a b).length := by
    rw [length_jsSlice]; omega
  have := getD_jsSlice l a b (j - a) hk
  rw [show a + (j - a) = j by omega] at this
  rw [← this, List.getD_eq_getElem _ _ hk]
  exact List.getElem_mem hk

theorem mem_of_mem_jsSlice {α : Type} {l : List α} {a b : ℕ} {x : α}
    (h : x ∈ jsSlice l a b) : x ∈ l :=
  List.mem_of_mem_drop (List.mem_of_mem_take h)

theorem jsSlice_jsSlice {α : Type} (l : List α) (s m a b : ℕ) :
    jsSlice (jsSlice l s m) a b = jsSlice l (s + a) (min (s + b) m) := by
  simp only [jsSlice, List.drop_take, List.drop_drop, List.take_take]
  congr 1
  omega

theorem length_logSpace (start stop : ℝ) (n : ℕ) : (logSpace start stop n).length = n := by
  simp only [logSpace, List.length_map, List.length_range]

theorem logSpace_one_getD (m : ℝ) {i : ℕ} (hi : i < 9) :
    (logSpace 1 m 9).getD i 0 = round (Real.exp (Real.log m * i / 8)) := by
  have hlen : i < (logSpace 1 m 9).length := by rw [length_logSpace]; exact hi
  rw [List.getD_eq_getElem _ _ hlen]
  simp only [logSpace, List.getElem_map, List.getElem_range, Real.log_one, Nat.cast_ofNat]
  congr 1
  ring_nf

/-- Rounding: `round y = v` once `y` is within a half of `v`. -/
theorem round_between {y : ℝ} {v : ℤ} (h1 : (v : ℝ) - 1 / 2 ≤ y) (h2 : y < (v : ℝ) + 1 / 2) :
    round y = v := by
  rw [round_eq]
  refine Int.floor_eq_iff.2 ⟨?_, ?_⟩ <;> push_cast <;> linarith

theorem exp_log_mul_div_lt {b c : ℝ} {i : ℕ} (hb : 0 < b) (hc : 0 < c)
    (h : b ^ i < c ^ (8 : ℕ)) : Real.exp (Real.log b * i / 8) < c := by
  have h1 : Real.log (b ^ i) < Real.log (c ^ (8 : ℕ)) := Real.log_lt_log (pow_pos hb i) h
  rw [Real.log_pow, Real.log_pow] at h1
  norm_num at h1
  have hx : Real.log b * i / 8 < Real.log c := by
    rw [div_lt_iff (by norm_num : (0 : ℝ) < 8)]
    linarith
  calc Real.exp (Real.log b * i / 8) < Real.exp (Real.log c) := Real.exp_lt_exp.2 hx
    _ = c := Real.exp_log hc

theorem le_exp_log_mul_div {b c : ℝ} {i : ℕ} (hb : 0 < b) (hc : 0 < c)
    (h : c ^ (8 : ℕ) ≤ b ^ i) : c ≤ Real.exp (Real.log b * i / 8) := by
  have h1 : Real.log (c ^ (8 : ℕ)) ≤ Real.log (b ^ i) :=
    (Real.log_le_log_iff (pow_pos hc 8) (pow_pos hb i)).2 h
  rw [Real.log_pow, Real.log_pow] at h1
  norm_num at h1
  have hx : Real.log c ≤ Real.log b * i / 8 := by
    rw [le_div_iff (by norm_num : (0 : ℝ) < 8)]
    linarith
  calc c = Real.exp (Real.log c) := (Real.exp_log hc).symm
    _ ≤ Real.exp (Real.log b * i / 8) := Real.exp_le_exp.2 hx

/-- One rounded boundary sample, pinned by rational inequalities on powers. -/
theorem round_exp_boundary {b : ℝ} {i : ℕ} {v : ℤ} (hb : 0 < b) (hv : 1 ≤ v)
    (hlo : (2 * (v : ℝ) - 1) ^ (8 : ℕ) ≤ 2 ^ 8 * b ^ i)
    (hhi : 2 ^ 8 * b ^ i < (2 * (v : ℝ) + 1) ^ (8 : ℕ)) :
    round (Real.exp (Real.log b * i / 8)) = v := by
  have hvR : (1 : ℝ) ≤ (v : ℝ) := by exact_mod_cast hv
  have hv1 : (0 : ℝ) < (v : ℝ) - 1 / 2 := by linarith
  have hv2 : (0 : ℝ) < (v : ℝ) + 1 / 2 := by linarith
  have hlo' : ((v : ℝ) - 1 / 2) ^ (8 : ℕ) ≤ b ^ i := by
    have hc : (2 * (v : ℝ) - 1) ^ (8 : ℕ) = 2 ^ 8 * ((v : ℝ) - 1 / 2) ^ (8 : ℕ) := by
      rw [show 2 * (v : ℝ) - 1 = 2 * ((v : ℝ) - 1 / 2) by ring, mul_pow]
    rw [hc] at hlo
    exact le_of_mul_le_mul_left hlo (by norm_num : (0 : ℝ) < 2 ^ 8)
  have hhi' : b ^ i < ((v : ℝ) + 1 / 2) ^ (8 : ℕ) := by
    have hc : (2 * (v : ℝ) + 1) ^ (8 : ℕ) = 2 ^ 8 * ((v : ℝ) + 1 / 2) ^ (8 : ℕ) := by
      rw [show 2 * (v : ℝ) + 1 = 2 * ((v : ℝ) + 1 / 2) by ring, mul_pow]
    rw [hc] at hhi
    exact lt_of_mul_lt_mul_left hhi (by norm_num : (0 : ℝ) ≤ 2 ^ 8)
  exact round_between (le_exp_log_mul_div hb hv1 hlo') (exp_log_mul_div_lt hb hv2 hhi')

/-- The boundaries actually computed for the deployed configuration
`startBin = 1`, `endBin = 800`, `totalBands = 8`. -/
theorem logSpace_800_getD {i : ℕ} (hi : i < 9) :
    (logSpace 1 800 9).getD i 0 = [1, 2, 5, 12, 28, 65, 150, 347, 800].getD i 0 := by
  rw [logSpace_one_getD 800 hi]
  interval_cases i
  · show _ = (1 : ℤ)
    exact round_exp_boundary (by norm_num) (by norm_num) (by norm_num) (by norm_num)
  · show _ = (2 : ℤ)
    exact round_exp_boundary (by norm_num) (by norm_num) (by norm_num) (by norm_num)
  · show _ = (5 : ℤ)
    exact round_exp_boundary (by norm_num) (by norm_num) (by norm_num) (by norm_num)
  · show _ = (12 : ℤ)
    exact round_exp_boundary (by norm_num) (by norm_num) (by norm_num) (by norm_num)
  · show _ = (28 : ℤ)
    exact round_exp_boundary (by norm_num) (by norm_num) (by norm_num) (by norm_num)
  · show _ = (65 : ℤ)
    exact round_exp_boundary (by norm_num) (by norm_num) (by norm_num) (by norm_num)
  · show _ = (150 : ℤ)
    exact round_exp_boundary (by norm_num) (by norm_num) (by norm_num) (by norm_num)
  · show _ = (347 : ℤ)
    exact round_exp_boundary (by norm_num) (by norm_num) (by norm_num) (by norm_num)
  · show _ = (800 : ℤ)
    exact round_exp_boundary (by norm_num) (by norm_num) (by norm_num) (by norm_num)

theorem logSpace_eval_800 : logSpace 1 800 9 = [1, 2, 5, 12, 28, 65, 150, 347, 800] := by
  apply List.ext_getElem (by rw [length_logSpace]; rfl)
  intro i h1 h2
  have hi : i < 9 := by rw [length_logSpace] at h1; exact h1
  have h := logSpace_800_getD hi
  rwa [List.getD_eq_getElem _ _ h1, List.getD_eq_getElem _ _ h2] at h

theorem logSpace_eval_one : logSpace 1 1 9 = List.replicate 9 1 := by
  apply List.ext_getElem (by rw [length_logSpace]; rfl)
  intro i h1 h2
  have hi : i < 9 := by rw [length_logSpace] at h1; exact h1
  have h := logSpace_one_getD 1 hi
  rw [List.getD_eq_getElem _ _ h1] at h
  rw [h, List.getElem_replicate]
  simp [Real.log_one]

theorem length_bandsFromBoundaries (data : List ℕ) (bs : List ℤ) :
    (bandsFromBoundaries data bs).length = 8 := by
  simp only [bandsFromBoundaries, List.length_map, List.length_range]

theorem bandsFromBoundaries_getD (data : List ℕ) (bs : List ℤ) {i : ℕ} (hi : i < 8) :
    (bandsFromBoundaries data bs).getD i 0 =
      listMax (jsSlice (jsSlice data 1 (min 800 data.length))
        ((bs.getD i 0).toNat - 1) ((bs.getD (i + 1) 0).toNat - 1)) := by
  have hlen : i < (bandsFromBoundaries data bs).length := by
    rw [length_bandsFromBoundaries]; exact hi
  rw [List.getD_eq_getElem _ _ hlen]
  simp only [bandsFromBoundaries, List.getElem_map, List.getElem_range]

theorem length_getFrequencyBands (data : List ℕ) : (getFrequencyBands data).length = 8 := by
  unfold getFrequencyBands
  split
  · simp
  · exact length_bandsFromBoundaries _ _

/-- Lower boundary of every band is at least `1` (`round (exp t) ≥ 1` for
`t ≥ 0`). -/
theorem one_le_bandBoundary {m : ℕ} (hm : 1 ≤ m) (i : ℕ) :
    1 ≤ round (Real.exp (Real.log m * i / 8)) := by
  have hlog : (0 : ℝ) ≤ Real.log m := Real.log_nonneg (by exact_mod_cast hm)
  have harg : (0 : ℝ) ≤ Real.log m * i / 8 := by positivity
  have hexp : (1 : ℝ) ≤ Real.exp (Real.log m * i / 8) := Real.one_le_exp harg
  rw [round_eq]
  exact Int.le_floor.2 (by push_cast; linarith)

theorem bandBoundary_le {m : ℕ} (hm : 1 ≤ m) {i : ℕ} (hi : i ≤ 8) :
    round (Real.exp (Real.log m * i / 8)) ≤ m := by
  have hm' : (0 : ℝ) < m := by exact_mod_cast hm
  have hlog : (0 : ℝ) ≤ Real.log m := Real.log_nonneg (by exact_mod_cast hm)
  have hiR : (i : ℝ) ≤ 8 := by exact_mod_cast hi
  have harg : Real.log m * i / 8 ≤ Real.log m := by
    rw [div_le_iff (by norm_num : (0 : ℝ) < 8)]
    nlinarith
  have hexp : Real.exp (Real.log m * i / 8) ≤ m := by
    calc Real.exp (Real.log m * i / 8) ≤ Real.exp (Real.log m) := Real.exp_le_exp.2 harg
      _ = m := Real.exp_log hm'
  rw [round_eq]
  have hfl : ⌊Real.exp (Real.log m * i / 8) + 1 / 2⌋ < (m : ℤ) + 1 := by
    apply Int.floor_lt.2
    push_cast
    linarith
  omega

theorem bandBoundary_zero (m : ℕ) : round (Real.exp (Real.log m * (0 : ℕ) / 8)) = 1 := by
  norm_num

theorem bandBoundary_eight {m : ℕ} (hm : 1 ≤ m) :
    round (Real.exp (Real.log m * (8 : ℕ) / 8)) = m := by
  have harg : Real.log m * (8 : ℕ) / 8 = Real.log m := by push_cast; ring
  rw [harg, Real.exp_log (by exact_mod_cast hm), round_natCast]

/-- A value below the first boundary and above the last lies in some band. -/
theorem exists_band_interval (B : ℕ → ℕ) (k : ℕ) :
    ∀ n, B 0 ≤ k → k < B n → ∃ i, i < n ∧ B i ≤ k ∧ k < B (i + 1) := by
  intro n
  induction n with
  | zero => intro h0 hn; omega
  | succ n ih =>
      intro h0 hn
      by_cases hB : B n ≤ k
      · exact ⟨n, Nat.lt_succ_self n, hB, hn⟩
      · rcases ih h0 (by omega) with ⟨i, h1, h2, h3⟩
        exact ⟨i, by omega, h2, h3⟩

theorem sum_ne_zero_length_pos {data : List ℕ} (hsum : data.sum ≠ 0) : 0 < data.length := by
  cases data with
  | nil => simp at hsum
  | cons a l => simp

/-- With a signal present, band `i` is the peak of the bins of `data`
between consecutive boundaries (clamped to the useful range). -/
theorem band_value (data : List ℕ) (hsum : data.sum ≠ 0) {i : ℕ} (hi : i < 8) :
    (getFrequencyBands data).getD i 0 =
      listMax (jsSlice data ((logSpace 1 ((min 800 data.length : ℕ) : ℝ) 9).getD i 0).toNat
        (min ((logSpace 1 ((min 800 data.length : ℕ) : ℝ) 9).getD (i + 1) 0).toNat
          (min 800 data.length))) := by
  have hlen : 0 < data.length := sum_ne_zero_length_pos hsum
  have hm : 1 ≤ min 800 data.length := by omega
  have hB1 : 1 ≤ (logSpace 1 ((min 800 data.length : ℕ) : ℝ) 9).getD i 0 := by
    rw [logSpace_one_getD _ (by omega)]
    exact one_le_bandBoundary hm i
  have hB2 : 1 ≤ (logSpace 1 ((min 800 data.length : ℕ) : ℝ) 9).getD (i + 1) 0 := by
    rw [logSpace_one_getD _ (by omega)]
    exact one_le_bandBoundary hm (i + 1)
  unfold getFrequencyBands
  rw [if_neg hsum, bandsFromBoundaries_getD data _ hi, jsSlice_jsSlice]
  have e1 : 1 + (((logSpace 1 ((min 800 data.length : ℕ) : ℝ) 9).getD i 0).toNat - 1)
      = ((logSpace 1 ((min 800 data.length : ℕ) : ℝ) 9).getD i 0).toNat := by omega
  have e2 : min (1 + (((logSpace 1 ((min 800 data.length : ℕ) : ℝ) 9).getD (i + 1) 0).toNat - 1))
        (min 800 data.length)
      = min (((logSpace 1 ((min 800 data.length : ℕ) : ℝ) 9).getD (i + 1) 0).toNat)
        (min 800 data.length) := by omega
  rw [e1, e2]

/-- With a signal present, the bands are all zero exactly when every byte
in the sampled bin range `[1, min 800 len)` is zero. -/
theorem getFrequencyBands_zero_iff (data : List ℕ) (hsum : data.sum ≠ 0) :
    (getFrequencyBands data = List.replicate 8 0 ↔
      ∀ j, 1 ≤ j → j < min 800 data.length → data.getD j 0 = 0) := by
  have hlen : 0 < data.length := sum_ne_zero_length_pos hsum
  have hm : 1 ≤ min 800 data.length := by omega
  have hBge : ∀ i, i ≤ 8 → 1 ≤ ((logSpace 1 ((min 800 data.length : ℕ) : ℝ) 9).getD i 0).toNat := by
    intro i hi
    have := one_le_bandBoundary hm i
    rw [← logSpace_one_getD (min 800 data.length : ℕ) (by omega)] at this
    omega
  have hBle : ∀ i, i ≤ 8 →
      ((logSpace 1 ((min 800 data.length : ℕ) : ℝ) 9).getD i 0).toNat ≤ min 800 data.length := by
    intro i hi
    have := bandBoundary_le hm hi
    rw [← logSpace_one_getD (min 800 data.length : ℕ) (by omega)] at this
    omega
  have hB0 : ((logSpace 1 ((min 800 data.length : ℕ) : ℝ) 9).getD 0 0).toNat = 1 := by
    rw [logSpace_one_getD _ (by omega)]
    rw [bandBoundary_zero]
    rfl
  have hB8 : ((logSpace 1 ((min 800 data.length : ℕ) : ℝ) 9).getD 8 0).toNat = min 800 data.length := by
    rw [logSpace_one_getD _ (by omega)]
    rw [bandBoundary_eight hm]
    exact Int.toNat_natCast _
  constructor
  · intro hz j hj1 hj2
    have hband0 : ∀ i, i < 8 → (getFrequencyBands data).getD i 0 = 0 := by
      intro i hi
      rw [hz]
      have hrl : i < (List.replicate 8 (0 : ℕ)).length := by simp [hi]
      rw [List.getD_eq_getElem _ _ hrl, List.getElem_replicate]
    obtain ⟨i, hi8, hBi, hBi1⟩ :=
      exists_band_interval
        (fun i => ((logSpace 1 ((min 800 data.length : ℕ) : ℝ) 9).getD i 0).toNat) j 8
        (by simpa only [hB0] using hj1) (by simpa only [hB8] using hj2)
    have hmem : data.getD j 0 ∈
        jsSlice data ((logSpace 1 ((min 800 data.length : ℕ) : ℝ) 9).getD i 0).toNat
          (min ((logSpace 1 ((min 800 data.length : ℕ) : ℝ) 9).getD (i + 1) 0).toNat
            (min 800 data.length)) :=
      getD_mem_jsSlice hBi (by omega) (by omega)
    have hle := le_listMax hmem
    rw [← band_value data hsum hi8, hband0 i hi8] at hle
    omega
  · intro hzero
    have hband0 : ∀ i, i < 8 → (getFrequencyBands data).getD i 0 = 0 := by
      intro i hi
      rw [band_value data hsum hi]
      apply listMax_eq_zero.2
      intro x hx
      obtain ⟨j, hj1, hj2, hj3, hj4⟩ := mem_jsSlice_imp hx
      have h1j : 1 ≤ j := le_trans (hBge i (by omega)) hj1
      rw [← hj4]
      exact hzero j h1j (by omega)
    apply List.ext_getElem (by rw [length_getFrequencyBands]; simp)
    intro i hI1 hI2
    have hi : i < 8 := by rw [length_getFrequencyBands] at hI1; exact hI1
    rw [← List.getD_eq_getElem _ 0 hI1, hband0 i hi, List.getElem_replicate]

/-- All band values stay within the byte range of the input. -/
theorem getFrequencyBands_le (data : List ℕ) (hv : ∀ v ∈ data, v ≤ 255) :
    ∀ b ∈ getFrequencyBands data, b ≤ 255 := by
  intro b hb
  unfold getFrequencyBands at hb
  split at hb
  · rw [List.eq_of_mem_replicate hb]
    omega
  · unfold bandsFromBoundaries at hb
    rcases List.mem_map.1 hb with ⟨i, _, rfl⟩
    apply listMax_le
    intro x hx
    exact hv x (mem_of_mem_jsSlice (mem_of_mem_jsSlice hx))

/-!
Claim theorems
-/
/-- C1 counterexample: the claim says `getFrequencyBands` returns all
zeros iff the input's total sum is zero.  The code, however, sums the
*whole* buffer to decide `hasSignal` but samples only bins
`[1, min 800 len)`: a buffer whose only energy sits in the DC bin
(index 0) has a positive sum, yet every band is zero. -/
theorem getFrequencyBands_zero_iff_cex :
    ([5] : List ℕ).sum ≠ 0 ∧ getFrequencyBands [5] = List.replicate 8 0 := by
  have hs : ([5] : List ℕ).sum ≠ 0 := by decide
  refine ⟨hs, ?_⟩
  unfold getFrequencyBands
  rw [if_neg hs]
  rw [show ((min 800 ([5] : List ℕ).length : ℕ) : ℝ) = (1 : ℝ) by norm_num]
  rw [logSpace_eval_one]
  decide

/-- C1 amended: for every byte buffer, `getFrequencyBands` returns
exactly 8 values, each in `[0, 255]`, and returns the all-zero sequence
iff every byte in the sampled bin range `[1, min 800 len)` is zero (not
iff the whole buffer sums to zero). -/
theorem getFrequencyBands_spec (data : List ℕ) (hv : ∀ v ∈ data, v ≤ 255) :
    (getFrequencyBands data).length = 8 ∧
      (∀ b ∈ getFrequencyBands data, b ≤ 255) ∧
      (getFrequencyBands data = List.replicate 8 0 ↔
        ∀ j, 1 ≤ j → j < min 800 data.length → data.getD j 0 = 0) := by
  refine ⟨length_getFrequencyBands data, getFrequencyBands_le data hv, ?_⟩
  by_cases hsum : data.sum = 0
  · constructor
    · intro _ j _ hj2
      have hall : ∀ x ∈ data, x = 0 := List.sum_eq_zero_iff.1 hsum
      have hjl : j < data.length := by omega
      rw [List.getD_eq_getElem _ _ hjl]
      exact hall _ (List.getElem_mem hjl)
    · intro _
      unfold getFrequencyBands
      rw [if_pos hsum]
  · exact getFrequencyBands_zero_iff data hsum

theorem getFrequencyBands_spec_witness :
    (getFrequencyBands [128]).length = 8 :=
  (getFrequencyBands_spec [128] (by decide)).1

/-- C2 counterexample: the claim says the boundaries *equal*
`exp(log start + i*(log end - log start)/8)`.  The code rounds each
sample to an integer: boundary 1 is `2`, while the exponential value is
`800^(1/8) ≈ 2.306` — not `2`, since `2^8 = 256 ≠ 800`. -/
theorem logSpace_boundary_not_exp_cex :
    (logSpace 1 800 9).getD 1 0 = 2 ∧
      Real.exp (Real.log 1 + 1 * (Real.log 800 - Real.log 1) / 8) ≠ 2 := by
  constructor
  · rw [logSpace_800_getD (by norm_num : (1 : ℕ) < 9)]
    rfl
  · intro h
    rw [show Real.log 1 + 1 * (Real.log 800 - Real.log 1) / 8 = Real.log 800 / 8 by
      rw [Real.log_one]; ring] at h
    have h8 : Real.exp (Real.log 800 / 8) ^ (8 : ℕ) = 800 := by
      rw [← Real.exp_nat_mul]
      rw [show ((8 : ℕ) : ℝ) * (Real.log 800 / 8) = Real.log 800 by push_cast; ring]
      exact Real.exp_log (by norm_num)
    rw [h] at h8
    norm_num at h8

/-- C2 amended: the nine boundaries are the *rounded* exponential
samples `round (exp (i * log 800 / 8))`, concretely
`[1, 2, 5, 12, 28, 65, 150, 347, 800]`; they are strictly increasing and,
being a pure value, identical on every call; and for the deployed buffer
length 1024 band `i` is the peak (maximum), not the average, of the data
bytes in `[boundary i, boundary (i+1))`. -/
theorem logSpace_boundaries_spec :
    logSpace 1 800 9 = [1, 2, 5, 12, 28, 65, 150, 347, 800] ∧
      List.Chain' (· < ·) (logSpace 1 800 9) ∧
      ∀ data : List ℕ, data.length = 1024 → data.sum ≠ 0 → ∀ i, i < 8 →
        (getFrequencyBands data).getD i 0 =
          listMax (jsSlice data (([1, 2, 5, 12, 28, 65, 150, 347, 800] : List ℕ).getD i 0)
            (([1, 2, 5, 12, 28, 65, 150, 347, 800] : List ℕ).getD (i + 1) 0)) := by
  refine ⟨logSpace_eval_800, ?_, ?_⟩
  · rw [logSpace_eval_800]
    norm_num [List.chain'_cons, List.chain'_singleton]
  · intro data hlen hsum i hi
    have hmin : min 800 data.length = 800 := by omega
    rw [band_value data hsum hi]
    simp only [hmin, Nat.cast_ofNat, logSpace_eval_800]
    interval_cases i <;> rfl

theorem logSpace_boundaries_spec_witness :
    (getFrequencyBands (List.replicate 1024 1)).getD 0 0 =
      listMax (jsSlice (List.replicate 1024 1)
        (([1, 2, 5, 12, 28, 65, 150, 347, 800] : List ℕ).getD 0 0)
        (([1, 2, 5, 12, 28, 65, 150, 347, 800] : List ℕ).getD 1 0)) :=
  logSpace_boundaries_spec.2.2 (List.replicate 1024 1) (by rw [List.length_replicate])
    (by rw [List.sum_const_nat]; norm_num) 0 (by norm_num)

/-- C3 (code bug): starting a new acquisition mode while the test tone
is active does not release the previous bank.  After `createTestTone`
twice from the fresh state, nine oscillators are running — the first
bank's LFO (node 3) and its three harmonics (nodes 7, 9, 11) were never
stopped, because only `oscillators[0]` (node 5) is stored — and the first
master gain (node 2) is still connected to the abandoned first analyser
(node 1).  Switching from test tone to microphone stops none of the five
first-bank oscillators. -/
theorem createTestTone_switch_duplicate_routing :
    (createTestTone (createTestTone initialProcessor emptyGraph).1
        (createTestTone initialProcessor emptyGraph).2).2.runningOsc.length = 9 ∧
      ((createTestTone (createTestTone initialProcessor emptyGraph).1
          (createTestTone initialProcessor emptyGraph).2).2.conns.filter
        fun e => e.2 = 1).length = 1 ∧
      (requestMicrophoneAccess (createTestTone initialProcessor emptyGraph).1
          (createTestTone initialProcessor emptyGraph).2).2.runningOsc.length = 5 := by
  decide

/-- C4 (code bug): `cleanup` after a test tone stops only the stored
fundamental oscillator (node 5).  The LFO (node 3) and the three harmonic
oscillators (nodes 7, 9, 11) of the bank are still running afterwards,
contradicting "stops … every oscillator created for the test tone". -/
theorem cleanup_leaves_oscillators_running :
    (cleanup (createTestTone initialProcessor emptyGraph).1
        (createTestTone initialProcessor emptyGraph).2).2.runningOsc = [3, 7, 9, 11] := by
  decide

/-- C5 counterexample: two particle ticks from identical (previous
state, band array, elapsed time, sensitivity) produce different sizes,
because the size write draws a fresh `Math.random()` sample each tick
(drawn as the extra argument of the embedding). -/
theorem particle_size_random_cex :
    (cloudParticleTick ⟨10, 0, 0⟩ [0, 0, 0, 0, 0, 0, 0, 0] 1 0 0 0).2.2 ≠
      (cloudParticleTick ⟨10, 0, 0⟩ [0, 0, 0, 0, 0, 0, 0, 0] 1 0 0 1).2.2 := by
  show particleSize ⟨10, 0, 0⟩ [0, 0, 0, 0, 0, 0, 0, 0] 1 0 ≠
    particleSize ⟨10, 0, 0⟩ [0, 0, 0, 0, 0, 0, 0, 0] 1 1
  have hai : audioIntensityAt ⟨10, 0, 0⟩ [0, 0, 0, 0, 0, 0, 0, 0] 1 = 0 := by
    unfold audioIntensityAt
    have hz : ∀ k, ([0, 0, 0, 0, 0, 0, 0, 0] : List ℝ).getD k 0 = 0 := by
      intro k
      rcases lt_or_ge k 8 with hk | hk
      · rw [List.getD_eq_getElem _ _ (by simpa using hk)]
        interval_cases k <;> rfl
      · exact List.getD_eq_default _ _ (by simpa using hk)
    simp only [hz]
    norm_num
  unfold particleSize
  rw [hai]
  norm_num

/-- C5 amended: the per-tick particle position and color updates and
the mesh update are deterministic functions of (previous state, band
array, elapsed time, sensitivity): they do not depend on the tick's
random sample, which feeds only the size update; the mesh tick takes no
random input at all. -/
theorem particle_mesh_update_deterministic (pos : Vec3) (audioData : List ℝ)
    (sensitivity t : ℝ) (i : ℕ) (r1 r2 : ℝ) (st : MeshState) :
    (cloudParticleTick pos audioData sensitivity t i r1).1 =
        (cloudParticleTick pos audioData sensitivity t i r2).1 ∧
      (cloudParticleTick pos audioData sensitivity t i r1).2.1 =
        (cloudParticleTick pos audioData sensitivity t i r2).2.1 ∧
      energyDisturbanceTick st audioData sensitivity t =
        energyDisturbanceTick st audioData sensitivity t :=
  ⟨rfl, rfl, rfl⟩

/-- C6 : `getRawVolume` is the RMS of the bytes normalized as
`byte/128 - 1`; it lies in `[0, 1]` and is `0` on the all-`128`
(silent) buffer. -/
theorem getRawVolume_spec (data : List ℕ) (hlen : 0 < data.length)
    (hv : ∀ b ∈ data, b ≤ 255) :
    0 ≤ getRawVolume data ∧ getRawVolume data ≤ 1 ∧
      ((∀ b ∈ data, b = 128) → getRawVolume data = 0) := by
  refine ⟨Real.sqrt_nonneg _, ?_, ?_⟩
  · have hsum : ((data.map fun (b : ℕ) => ((b : ℝ) / 128 - 1) * ((b : ℝ) / 128 - 1)).sum)
        ≤ (data.length : ℝ) := by
      have hb : ∀ x ∈ (data.map fun (b : ℕ) => ((b : ℝ) / 128 - 1) * ((b : ℝ) / 128 - 1)),
          x ≤ (1 : ℝ) := by
        intro x hx
        rcases List.mem_map.1 hx with ⟨b, hb, rfl⟩
        have h255 : (b : ℝ) ≤ 255 := by exact_mod_cast hv b hb
        have hprod : 0 ≤ (b : ℝ) / 128 * (2 - (b : ℝ) / 128) :=
          mul_nonneg (by positivity) (by linarith)
        nlinarith [hprod]
      have := List.sum_le_card_nsmul _ 1 hb
      simpa using this
    have hlenR : (0 : ℝ) < data.length := by exact_mod_cast hlen
    have hle : ((data.map fun (b : ℕ) => ((b : ℝ) / 128 - 1) * ((b : ℝ) / 128 - 1)).sum) /
        data.length ≤ 1 := by
      rw [div_le_one hlenR]
      exact hsum
    have hsq := Real.sqrt_le_sqrt hle
    rw [Real.sqrt_one] at hsq
    unfold getRawVolume
    exact hsq
  · intro h128
    unfold getRawVolume
    have hzero :
        (data.map fun (b : ℕ) => ((b : ℝ) / 128 - 1) * ((b : ℝ) / 128 - 1)).sum = 0 := by
      apply List.sum_eq_zero
      intro x hx
      rcases List.mem_map.1 hx with ⟨b, hb, rfl⟩
      rw [h128 b hb]
      norm_num
    rw [hzero, zero_div, Real.sqrt_zero]

theorem getRawVolume_spec_witness :
    0 ≤ getRawVolume [128, 128] ∧ getRawVolume [128, 128] ≤ 1 ∧
      ((∀ b ∈ ([128, 128] : List ℕ), b = 128) → getRawVolume [128, 128] = 0) :=
  getRawVolume_spec [128, 128] (by norm_num) (by decide)

/-- C7 : after the bounds-reset step of a tick no point is farther than
20 from the origin; a point whose post-movement distance exceeds 20 is
moved to exactly radius 10 along its current direction (a positive scalar
multiple of itself), and points within bounds are left unchanged. -/
theorem boundsReset_spec (v : Vec3) :
    vecLength (boundsReset v) ≤ 20 ∧
      (20 < vecLength v →
        vecLength (boundsReset v) = 10 ∧
          ∃ c : ℝ, 0 < c ∧ boundsReset v = ⟨c * v.x, c * v.y, c * v.z⟩) ∧
      (vecLength v ≤ 20 → boundsReset v = v) := by
  by_cases h : 20 < vecLength v
  · have hpos : 0 < vecLength v := lt_trans (by norm_num) h
    have hres : boundsReset v = ⟨v.x / vecLength v * 10, v.y / vecLength v * 10,
        v.z / vecLength v * 10⟩ := by
      unfold boundsReset
      rw [if_pos h]
    have hLL : vecLength v * vecLength v = v.x * v.x + v.y * v.y + v.z * v.z :=
      Real.mul_self_sqrt
        (add_nonneg (add_nonneg (mul_self_nonneg _) (mul_self_nonneg _)) (mul_self_nonneg _))
    have hlen10 : vecLength (boundsReset v) = 10 := by
      rw [hres]
      show Real.sqrt (v.x / vecLength v * 10 * (v.x / vecLength v * 10) +
        v.y / vecLength v * 10 * (v.y / vecLength v * 10) +
        v.z / vecLength v * 10 * (v.z / vecLength v * 10)) = 10
      rw [show v.x / vecLength v * 10 * (v.x / vecLength v * 10) +
            v.y / vecLength v * 10 * (v.y / vecLength v * 10) +
            v.z / vecLength v * 10 * (v.z / vecLength v * 10)
          = (v.x * v.x + v.y * v.y + v.z * v.z) * (10 / vecLength v) *
            (10 / vecLength v) by ring]
      rw [← hLL]
      rw [show vecLength v * vecLength v * (10 / vecLength v) * (10 / vecLength v)
          = 10 * 10 by field_simp; ring]
      rw [Real.sqrt_mul_self (by norm_num)]
    refine ⟨by rw [hlen10]; norm_num, fun _ => ⟨hlen10, 10 / vecLength v,
      div_pos (by norm_num) hpos, ?_⟩, fun hc => absurd h (not_lt.2 hc)⟩
    rw [hres]
    simp only [Vec3.mk.injEq]
    refine ⟨by ring, by ring, by ring⟩
  · have hres : boundsReset v = v := by
      unfold boundsReset
      rw [if_neg h]
    exact ⟨by rw [hres]; exact not_lt.1 h, fun hc => absurd hc h, fun _ => hres⟩

theorem boundsReset_spec_witness :
    vecLength (boundsReset ⟨30, 0, 0⟩) ≤ 20 ∧
      (20 < vecLength ⟨30, 0, 0⟩ →
        vecLength (boundsReset ⟨30, 0, 0⟩) = 10 ∧
          ∃ c : ℝ, 0 < c ∧ boundsReset ⟨30, 0, 0⟩ =
            ⟨c * (30 : ℝ), c * (0 : ℝ), c * (0 : ℝ)⟩) ∧
      (vecLength ⟨30, 0, 0⟩ ≤ 20 → boundsReset ⟨30, 0, 0⟩ = ⟨30, 0, 0⟩) :=
  boundsReset_spec ⟨30, 0, 0⟩

/-- C8 : for positive sensitivity, a bass-only band array yields a
strictly positive vertical bias and a treble-only band array a strictly
positive radial bias. -/
theorem bias_spec (sensitivity : ℝ) (hs : 0 < sensitivity) :
    0 < verticalBias sensitivity [255, 0, 0, 0, 0, 0, 0, 0] ∧
      0 < radialBias sensitivity [0, 0, 0, 0, 0, 0, 0, 255] := by
  have h1 : verticalBias sensitivity [255, 0, 0, 0, 0, 0, 0, 0] = sensitivity * 0.15 := by
    unfold verticalBias lowFreqIntensity highFreqIntensity jsSlice
    norm_num
    ring
  have h2 : radialBias sensitivity [0, 0, 0, 0, 0, 0, 0, 255] = sensitivity * 0.1 := by
    unfold radialBias lowFreqIntensity highFreqIntensity jsSlice
    norm_num
    ring
  rw [h1, h2]
  constructor
  · exact mul_pos hs (by norm_num)
  · exact mul_pos hs (by norm_num)

theorem bias_spec_witness :
    0 < verticalBias 1 [255, 0, 0, 0, 0, 0, 0, 0] ∧
      0 < radialBias 1 [0, 0, 0, 0, 0, 0, 0, 255] :=
  bias_spec 1 one_pos

/-- C9 counterexample: `stopListening` does not reset the raw-volume
state; starting from a state whose `rawVolume` is `1/2` it is still
`1/2 ≠ 0` afterwards, while the claim demands `0`. -/
theorem stopListening_rawVolume_cex :
    (stopListening
        { isListening := true
          audioData := List.replicate 8 0
          microphoneStatus := MicStatus.active
          audioLevel := 0
          rawVolume := 1 / 2
          processor := initialProcessor
          animationFrame := true } emptyGraph).1.rawVolume ≠ 0 := by
  unfold stopListening
  norm_num

/-- C9 amended: `stopListening` resets the band array to eight zeros,
the audio level to 0 and the acquisition status to `initial`, runs the
processor cleanup (nulling the data array) — but leaves `rawVolume` at
its previous value instead of resetting it to 0. -/
theorem stopListening_spec (s : VisualizerState) (g : AudioGraph) :
    (stopListening s g).1.audioData = List.replicate 8 0 ∧
      (stopListening s g).1.audioLevel = 0 ∧
      (stopListening s g).1.microphoneStatus = MicStatus.initial ∧
      (stopListening s g).1.isListening = false ∧
      (stopListening s g).1.processor.hasDataArray = false ∧
      (stopListening s g).1.rawVolume = s.rawVolume := by
  unfold stopListening cleanup
  refine ⟨rfl, rfl, rfl, rfl, rfl, rfl⟩

/-- C10 : before any acquisition and after `cleanup`, the analysis
queries are guarded and return their defaults — `getFrequencyData` is
`null`, `getRawVolume` is `0`, `getFrequencyBands` is eight zeros — for
every analyser snapshot. -/
theorem getters_idle_safe (p : Processor) (g : AudioGraph) (freq time : List ℕ) :
    getFrequencyDataS initialProcessor freq = none ∧
      getRawVolumeS initialProcessor time = 0 ∧
      getFrequencyBandsS initialProcessor freq = List.replicate 8 0 ∧
      getFrequencyDataS (cleanup p g).1 freq = none ∧
      getRawVolumeS (cleanup p g).1 time = 0 ∧
      getFrequencyBandsS (cleanup p g).1 freq = List.replicate 8 0 := by
  have hcl : (cleanup p g).1.hasDataArray = false := by
    unfold cleanup
    rfl
  refine ⟨?_, ?_, ?_, ?_, ?_, ?_⟩ <;>
    simp [getFrequencyDataS, getRawVolumeS, getFrequencyBandsS, initialProcessor, hcl]

end Soundvis
